import Mathlib

/-!
Verification development for the `PresetAnalyzer` audio-analysis pipeline
(`src/PresetAnalyzer.py`).

The spectrum-walking, band-selection and reference-level code of the source
uses only field arithmetic and comparisons, so it is embedded over `ℚ`
(executable, decidable).  The normalization / denormalization maps and the
global Q-balancing pass use `log10` and `10 ** x`, so they are embedded over
`ℝ` with `Real.logb 10` and real exponentiation.
-/

/-! ### Rational-valued helpers mirroring the numpy primitives used by the source -/

/-- Model of `np.argmax` (first index attaining the maximum): auxiliary scan
carrying the current position, best index and best value.  A later element
replaces the best only when strictly greater, so the first maximum wins,
matching numpy. -/
def argmaxAux : List ℚ → ℕ → ℕ → ℚ → ℕ
  | [], _, best, _ => best
  | x :: xs, i, best, bv =>
    if bv < x then argmaxAux xs (i + 1) i x else argmaxAux xs (i + 1) best bv

/-- Model of `np.argmax` on a 1-D array (first index of the maximum; `0` on an
empty list, a case the source never exercises). -/
def argmaxIdx : List ℚ → ℕ
  | [] => 0
  | x :: xs => argmaxAux xs 1 0 x

/-- Model of `np.argmin` (first index attaining the minimum), auxiliary scan. -/
def argminAux : List ℚ → ℕ → ℕ → ℚ → ℕ
  | [], _, best, _ => best
  | x :: xs, i, best, bv =>
    if x < bv then argminAux xs (i + 1) i x else argminAux xs (i + 1) best bv

/-- Model of `np.argmin` on a 1-D array (first index of the minimum). -/
def argminIdx : List ℚ → ℕ
  | [] => 0
  | x :: xs => argminAux xs 1 0 x

/-- Model of `np.argmin(np.abs(freqs - target))`, the nearest-bin lookup used
throughout `PresetAnalyzer.py`. -/
def argminAbs (freqs : List ℚ) (target : ℚ) : ℕ :=
  argminIdx (freqs.map (fun f => |f - target|))

/-- Model of `np.mean` on a 1-D array: sum divided by length (an empty list
gives `0/0 = 0`; the source only calls it on non-empty slices). -/
def meanQ (l : List ℚ) : ℚ :=
  l.sum / l.length

/-- Insertion step of the sort backing the median model. -/
def insertSorted (x : ℚ) : List ℚ → List ℚ
  | [] => [x]
  | y :: ys => if x ≤ y then x :: y :: ys else y :: insertSorted x ys

/-- Insertion sort on rationals, backing the median model. -/
def sortQ : List ℚ → List ℚ
  | [] => []
  | x :: xs => insertSorted x (sortQ xs)

/-- Model of `np.median` on a non-empty 1-D array: sort, then take the middle
element (odd length) or the mean of the two middle elements (even length). -/
def medianQ (l : List ℚ) : ℚ :=
  let s := sortQ l
  let n := s.length
  if n % 2 = 1 then s.getD (n / 2) 0
  else (s.getD (n / 2 - 1) 0 + s.getD (n / 2) 0) / 2

/-- Model of 1-D `np.average(values, weights)`: numpy raises a `ValueError`
when the weights' length differs from the values' length, modelled as `none`;
otherwise the weighted sum divided by the weight total. -/
def npAverage (values weights : List ℚ) : Option ℚ :=
  if values.length = weights.length ∧ values ≠ [] then
    some ((List.zipWith (fun v w => v * w) values weights).sum / weights.sum)
  else none

/-! ### `calculate_q_from_spectrum` (source lines 78-133) -/

/-- The frequency-tiered default Q of `calculate_q_from_spectrum`
(source lines 100-109): 0.7 below 100 Hz, 1.0 below 250 Hz, 1.2 below
2000 Hz, else 1.5. -/
def tieredDefault (center_freq : ℚ) : ℚ :=
  if center_freq < 100 then 0.7
  else if center_freq < 250 then 1.0
  else if center_freq < 2000 then 1.2
  else 1.5

/-- The descending `-3 dB` search of `calculate_q_from_spectrum`
(source lines 89-91): `while lower_idx > 0 and spectrum[lower_idx] >
half_power: lower_idx -= 1`.  Structural recursion on the index. -/
def lowerWalk (s : List ℚ) (half_power : ℚ) : ℕ → ℕ
  | 0 => 0
  | i + 1 => if half_power < s.getD (i + 1) 0 then lowerWalk s half_power i else i + 1

/-- The ascending `-3 dB` search of `calculate_q_from_spectrum`
(source lines 94-96): `while upper_idx < len(spectrum) - 1 and
spectrum[upper_idx] > half_power: upper_idx += 1`.  Fuel-based recursion so
the definition reduces in the kernel; the loop advances the index by one per
iteration and stops at `len - 1`, so `s.length` units of fuel always
suffice (see `upperWalkFrom`). -/
def upperWalk (s : List ℚ) (half_power : ℚ) : ℕ → ℕ → ℕ
  | 0, i => i
  | fuel + 1, i =>
    if i < s.length - 1 ∧ half_power < s.getD i 0 then upperWalk s half_power fuel (i + 1)
    else i

/-- The ascending walk started with adequate fuel. -/
def upperWalkFrom (s : List ℚ) (half_power : ℚ) (i : ℕ) : ℕ :=
  upperWalk s half_power s.length i

/-- Embedding of `calculate_q_from_spectrum(spectrum, peak_idx, freqs)`
(source lines 78-133).  Indices are naturals (numpy argmin/argmax results are
non-negative), `spectrum[i]` is `List.getD` (the source never reads out of
bounds on the paths it executes), and the Python check `lower_idx < 0` is
vacuous over `ℕ` exactly as it is vacuous in the source. -/
def calculate_q_from_spectrum (spectrum : List ℚ) (peak_idx : ℕ) (freqs : List ℚ) : ℚ :=
  if peak_idx = 0 ∨ spectrum.length - 1 ≤ peak_idx then 1.0
  else
    let peak_val := spectrum.getD peak_idx 0
    let half_power := peak_val - 3.0
    let lower_idx := lowerWalk spectrum half_power peak_idx
    let upper_idx := upperWalkFrom spectrum half_power peak_idx
    if upper_idx ≤ lower_idx ∨ freqs.length ≤ upper_idx then
      tieredDefault (freqs.getD peak_idx 0)
    else
      let center_freq := freqs.getD peak_idx 0
      let bandwidth := freqs.getD upper_idx 0 - freqs.getD lower_idx 0
      if bandwidth ≤ 0 then 1.0
      else
        let q := center_freq / bandwidth
        let q2 :=
          if center_freq < 100 then q * 0.5
          else if center_freq < 250 then q * 0.6
          else if center_freq < 800 then q * 0.7
          else if center_freq < 2500 then q * 0.8
          else if center_freq < 5000 then q * 0.9
          else q
        min (max q2 0.5) 4.0

/-! ### `calculate_reference_level` (source lines 150-178) -/

/-- The `ref_levels` accumulation loop of `calculate_reference_level`
(source lines 159-170): for each reference band the nearest bins to the band
edges are located; when they are in order and the spectrum slice is
non-empty, the slice's median joins the list. -/
def refLevels (spectrum freqs : List ℚ) : List ℚ :=
  let ref_points : List (ℚ × ℚ) := [(400, 600), (800, 1200), (2000, 3000)]
  ref_points.foldr (fun pt acc =>
    let low_idx := argminAbs freqs pt.1
    let high_idx := argminAbs freqs pt.2
    if low_idx < high_idx then
      let band_spectrum := (spectrum.drop low_idx).take (high_idx - low_idx)
      if 0 < band_spectrum.length then medianQ band_spectrum :: acc else acc
    else acc) []

/-- Embedding of `calculate_reference_level(spectrum, freqs)` (source lines
150-178).  The numpy weighted average (weights `[0.25, 0.5, 0.25]`) raises
when `ref_levels` does not have exactly three entries, modelled by
`npAverage` returning `none`.  An empty `ref_levels` yields `0`. -/
def calculate_reference_level (spectrum freqs : List ℚ) : Option ℚ :=
  if refLevels spectrum freqs ≠ [] then
    npAverage (refLevels spectrum freqs) [0.25, 0.5, 0.25]
  else some 0

/-- The success condition of one reference band in `calculate_reference_level`
(source lines 163-168): edge bins in order and a non-empty spectrum slice. -/
def refBandOk (spectrum freqs : List ℚ) (low high : ℚ) : Prop :=
  argminAbs freqs low < argminAbs freqs high ∧
    0 < ((spectrum.drop (argminAbs freqs low)).take
          (argminAbs freqs high - argminAbs freqs low)).length

instance (spectrum freqs : List ℚ) (low high : ℚ) :
    Decidable (refBandOk spectrum freqs low high) :=
  instDecidableAnd

/-- The median a reference band contributes in `calculate_reference_level`
(source line 170). -/
def refBandMedian (spectrum freqs : List ℚ) (low high : ℚ) : ℚ :=
  medianQ ((spectrum.drop (argminAbs freqs low)).take
    (argminAbs freqs high - argminAbs freqs low))

/-! ### Upper-band peak/dip selection (source lines 470-525) -/

/-- One upper band's selected parameters, before the cross-cutting gain/Q
adjustments of source lines 527-553. -/
structure BandChoice where
  freq : ℚ
  gain : ℚ
  q : ℚ
  pickedPeak : Bool
  deriving DecidableEq, Repr

/-- The peak-branch Q ceilings of source lines 500-507 (Mids 1.8, High Mids
2.0, Presence 2.5, Air 1.5). -/
def qPeakCapFor (i : ℕ) : ℚ :=
  if i = 3 then 1.8 else if i = 4 then 2.0 else if i = 5 then 2.5 else 1.5

/-- The dip-branch Q ceilings of source lines 517-525 (Mids 1.5, High Mids
1.7, Presence 2.0, Air 1.2). -/
def qDipCapFor (i : ℕ) : ℚ :=
  if i = 3 then 1.5 else if i = 4 then 1.7 else if i = 5 then 2.0 else 1.2

/-- Embedding of the upper-band (`i` in 3..6) peak-vs-dip selection of
`analyze_audio` (source lines 470-525): significance weighting, extremum
choice, bandwidth-derived Q, and the band-specific Q scaling and ceilings. -/
def upperBandSelect (i : ℕ) (range_spectrum freq_array : List ℚ)
    (reference_level : ℚ) : BandChoice :=
  let peak_idx := argmaxIdx range_spectrum
  let dip_idx := argminIdx range_spectrum
  let peak_val := range_spectrum.getD peak_idx 0
  let dip_val := range_spectrum.getD dip_idx 0
  let band_avg := meanQ range_spectrum
  let peak_significance := peak_val - band_avg
  let dip_significance := band_avg - dip_val
  let ds := if i = 3 then dip_significance * 1.15 else dip_significance
  let ps :=
    if i = 3 then peak_significance
    else if i = 4 then peak_significance * 1.1
    else if 5 ≤ i then peak_significance * 1.2
    else peak_significance
  if ds < ps then
    let q0 := calculate_q_from_spectrum range_spectrum peak_idx freq_array
    let q :=
      if i = 3 then min (q0 * 0.9) 1.8
      else if i = 4 then min (q0 * 0.95) 2.0
      else if i = 5 then min q0 2.5
      else min (q0 * 0.8) 1.5
    ⟨freq_array.getD peak_idx 0, peak_val - reference_level, q, true⟩
  else
    let q0 := calculate_q_from_spectrum range_spectrum dip_idx freq_array
    let q1 := q0 * 0.8
    let q :=
      if i = 3 then min q1 1.5
      else if i = 4 then min q1 1.7
      else if i = 5 then min q1 2.0
      else min q1 1.2
    ⟨freq_array.getD dip_idx 0, dip_val - reference_level, q, false⟩

/-! ### Normalization maps (source lines 643-672) and the Q denormalization
used by the final balancing pass (source lines 590-613).  `np.log10` is
`Real.logb 10`; `pow(10, x)` is real exponentiation. -/

/-- Model of `np.log10`. -/
noncomputable def log10 (x : ℝ) : ℝ := Real.logb 10 x

/-- The clamp `max(0.0, min(1.0, x))` applied by every normalizer (source
lines 652, 663, 670) and by the balancer rewrite (source line 609). -/
noncomputable def clamp01 (x : ℝ) : ℝ := max 0 (min 1 x)

/-- Embedding of `normalize_frequency` (source lines 643-652): logarithmic
map of [20, 20000] Hz onto [0, 1], clamped. -/
noncomputable def normalize_frequency (freq : ℝ) : ℝ :=
  clamp01 ((log10 freq - log10 20) / (log10 20000 - log10 20))

/-- Embedding of `normalize_gain` (source lines 655-663): linear map of
[-24, 24] dB onto [0, 1], clamped. -/
noncomputable def normalize_gain (gain : ℝ) : ℝ :=
  clamp01 ((gain - (-24)) / (24 - (-24)))

/-- The pre-clamp core of `normalize_q` (source line 669), also the re-
normalization formula of the balancing pass (source line 608). -/
noncomputable def normalize_q_raw (q : ℝ) : ℝ :=
  (log10 q - log10 0.1) / (log10 10 - log10 0.1)

/-- Embedding of `normalize_q` (source lines 666-672): logarithmic map of
[0.1, 10] onto [0, 1], clamped. -/
noncomputable def normalize_q (q : ℝ) : ℝ :=
  clamp01 (normalize_q_raw q)

/-- The Q denormalization of the balancing pass (source line 595):
`0.1 * pow(10, normalized_q * (np.log10(10) - np.log10(0.1)))`. -/
noncomputable def denormalize_q (nq : ℝ) : ℝ :=
  0.1 * (10 : ℝ) ^ (nq * (log10 10 - log10 0.1))

/-- Modelled from the spec: denormalization of frequency.  The source has no
frequency denormalizer (only `normalize_q`'s inverse appears, in the
balancer); §4.8 of the spec mandates "the exact algebraic inverse" of the
logarithmic map, which is this function. -/
noncomputable def denormalize_frequency (nf : ℝ) : ℝ :=
  (10 : ℝ) ^ (nf * (log10 20000 - log10 20) + log10 20)

/-- Modelled from the spec: denormalization of gain.  The source has no gain
denormalizer; §4.8 of the spec mandates the exact algebraic inverse of the
linear map, which is this function. -/
noncomputable def denormalize_gain (ng : ℝ) : ℝ :=
  ng * (24 - (-24)) + (-24)

/-- The `max(actual_q_values)` of the balancing pass (source line 601): the
maximum of the seven denormalized Q values. -/
noncomputable def maxActualQ (qs : Fin 7 → ℝ) : ℝ :=
  Finset.univ.sup' Finset.univ_nonempty fun i => denormalize_q (qs i)

/-- Embedding of the final Q-balancing pass of `analyze_audio` (source lines
590-613) on the seven stored normalized Q values: denormalize each, and when
the maximum actual Q exceeds 2.0 rescale every actual Q by the single factor
`2.0 / max`, re-normalize and clamp; otherwise leave the stored values
untouched. -/
noncomputable def global_q_balancer (qs : Fin 7 → ℝ) : Fin 7 → ℝ :=
  if 2 < maxActualQ qs then
    fun i => clamp01 (normalize_q_raw (denormalize_q (qs i) * (2 / maxActualQ qs)))
  else qs

/-! ### `analyze_transients` (source lines 301-334) -/

/-- Modelled from the scipy contract of `savgol_filter(x, window_length,
polyorder)` (default mode `interp`): raises a `ValueError` when
`window_length` exceeds the input size or `polyorder >= window_length`,
modelled as `Except.error`.  The filtered values themselves play no role in
any claim here (only the transient count derived downstream does), so the
success branch passes the samples through. -/
def savgolFilter (xs : List ℝ) (window_length polyorder : ℕ) : Except String (List ℝ) :=
  if xs.length < window_length ∨ window_length ≤ polyorder then
    Except.error "savgol_filter: window_length must not exceed the input size"
  else Except.ok xs

/-- Model of `np.diff` on a 1-D array. -/
def diffList : List ℝ → List ℝ
  | [] => []
  | [_] => []
  | x :: y :: rest => (y - x) :: diffList (y :: rest)

/-- Model of `np.mean` over the reals. -/
noncomputable def meanR (l : List ℝ) : ℝ := l.sum / l.length

/-- Model of `np.std` (population standard deviation). -/
noncomputable def stdR (l : List ℝ) : ℝ :=
  Real.sqrt (meanR (l.map (fun x => (x - meanR l) ^ 2)))

/-- Modelled from the scipy contract of `find_peaks(x, height=h)`: counts the
interior samples strictly greater than both neighbours whose value reaches
the height threshold (scipy's plateau handling is not exercised by any claim
here). -/
noncomputable def countPeaks (height : ℝ) : List ℝ → ℕ
  | a :: b :: c :: rest =>
    (if a < b ∧ c < b ∧ height ≤ b then 1 else 0) + countPeaks height (b :: c :: rest)
  | _ => 0

/-- Embedding of `analyze_transients(y, sr)` (source lines 301-334): absolute
envelope, ~10 ms odd smoothing window (`int(sr * 0.01)` is natural division
by 100 for an integral sample rate), Savitzky-Golay smoothing (which *fails*
when the window exceeds the signal length), envelope derivative, peak count
above twice the derivative's standard deviation, transient density (zero
guard for an empty signal), and the tiered Q factor. -/
noncomputable def analyze_transients (y : List ℝ) (sr : ℕ) : Except String (ℝ × ℝ) :=
  let envelope := y.map (fun v => |v|)
  let ws0 := sr / 100
  let window_size := if ws0 % 2 = 0 then ws0 + 1 else ws0
  match savgolFilter envelope window_size 3 with
  | Except.error e => Except.error e
  | Except.ok smoothed =>
    let derivative := diffList smoothed
    let peaks := countPeaks (stdR derivative * 2) derivative
    let transient_density :=
      if 0 < y.length then (peaks : ℝ) / ((y.length : ℝ) / (sr : ℝ)) else 0
    let transient_q_factor :=
      if (10 : ℝ) < transient_density then 1.3
      else if (5 : ℝ) < transient_density then 1.1
      else 0.9
    Except.ok (transient_density, transient_q_factor)

/-! ### Preset metadata assembly (source lines 413-419, 558-572) -/

/-- The preset's `Metadata` block (source lines 413-419). -/
structure PresetMetadata where
  createdBy : String
  sourceFile : String
  creationDate : String
  transientDensity : ℝ
  frequencyRange : ℝ × ℝ

/-- Construction of the `Metadata` block (source lines 413-419); the creation
date is the wall-clock time `datetime.datetime.now()` formatted as a string,
an input external to the analysis. -/
def mkMetadata (sourceFile creationDate : String) (transientDensity : ℝ)
    (frequencyRange : ℝ × ℝ) : PresetMetadata :=
  { createdBy := "PresetAnalyzer", sourceFile := sourceFile,
    creationDate := creationDate, transientDensity := transientDensity,
    frequencyRange := frequencyRange }

/-- The full preset value: metadata, the seven normalized
(frequency, gain, Q) triples, and the fixed `ZeroLatency` flag
(source lines 399-572). -/
structure Preset where
  metadata : PresetMetadata
  bands : Fin 7 → ℝ × ℝ × ℝ
  zeroLatency : ℝ

/-- Assembly of the preset from the analysis results and the wall-clock
timestamp (source lines 399-572); `ZeroLatency` is fixed at `1.0`
(source line 572). -/
def mkPreset (sourceFile creationDate : String) (transientDensity : ℝ)
    (frequencyRange : ℝ × ℝ) (bands : Fin 7 → ℝ × ℝ × ℝ) : Preset :=
  { metadata := mkMetadata sourceFile creationDate transientDensity frequencyRange,
    bands := bands, zeroLatency := 1.0 }

/-- Erase the only time-dependent field of the metadata. -/
def eraseDate (m : PresetMetadata) : PresetMetadata :=
  { m with creationDate := "" }

/-- Erase the only time-dependent field of a preset. -/
def erasePresetDate (p : Preset) : Preset :=
  { p with metadata := eraseDate p.metadata }

/-! ### Shared lemmas about the `-3 dB` walks -/

/-- The descending walk never moves up. -/
lemma lowerWalk_le (s : List ℚ) (hp : ℚ) : ∀ i, lowerWalk s hp i ≤ i := by
  intro i
  induction i with
  | zero => simp [lowerWalk]
  | succ k ih =>
    unfold lowerWalk
    split
    · exact le_trans ih (Nat.le_succ k)
    · exact le_refl _

/-- The ascending walk never moves down. -/
lemma upperWalk_ge (s : List ℚ) (hp : ℚ) : ∀ fuel i, i ≤ upperWalk s hp fuel i := by
  intro fuel
  induction fuel with
  | zero => intro i; simp [upperWalk]
  | succ f ih =>
    intro i
    unfold upperWalk
    split
    · exact le_trans (Nat.le_succ i) (ih (i + 1))
    · exact le_refl _

/-- The ascending walk stops no later than the last index. -/
lemma upperWalk_le (s : List ℚ) (hp : ℚ) :
    ∀ fuel i, i ≤ s.length - 1 → upperWalk s hp fuel i ≤ s.length - 1 := by
  intro fuel
  induction fuel with
  | zero => intro i h; simpa [upperWalk] using h
  | succ f ih =>
    intro i h
    unfold upperWalk
    split
    · next hcond => exact ih (i + 1) hcond.1
    · exact h

/-- Started from an interior extremum, the two `-3 dB` walks always produce a
valid index pair: the extremum's own level exceeds `level - 3`, so each walk
takes at least one step away from the extremum, and the ascending walk stays
within the frequency array whenever it is at least as long as the spectrum. -/
lemma walk_valid (s fs : List ℚ) (p : ℕ) (hp0 : 0 < p) (hpl : p < s.length - 1)
    (hlen : s.length ≤ fs.length) :
    lowerWalk s (s.getD p 0 - 3) p < upperWalkFrom s (s.getD p 0 - 3) p ∧
      upperWalkFrom s (s.getD p 0 - 3) p < fs.length := by
  obtain ⟨k, rfl⟩ : ∃ k, p = k + 1 := ⟨p - 1, (Nat.succ_pred_eq_of_pos hp0).symm⟩
  have hlow : lowerWalk s (s.getD (k + 1) 0 - 3) (k + 1) ≤ k := by
    unfold lowerWalk
    rw [if_pos (by linarith [s.getD (k + 1) 0] : s.getD (k + 1) 0 - 3 < s.getD (k + 1) 0)]
    exact lowerWalk_le s _ k
  obtain ⟨m, hm⟩ : ∃ m, s.length = m + 1 :=
    ⟨s.length - 1, (Nat.succ_pred_eq_of_pos (by omega)).symm⟩
  have hupp : k + 2 ≤ upperWalkFrom s (s.getD (k + 1) 0 - 3) (k + 1) := by
    unfold upperWalkFrom
    rw [hm]
    unfold upperWalk
    rw [if_pos ⟨by omega, by linarith [s.getD (k + 1) 0]⟩]
    exact upperWalk_ge s _ m (k + 2)
  have huppLe : upperWalkFrom s (s.getD (k + 1) 0 - 3) (k + 1) ≤ s.length - 1 :=
    upperWalk_le s _ s.length (k + 1) (by omega)
  exact ⟨by omega, by omega⟩

/-! ### Shared lemmas about the upper-band selection -/

/-- When the weighted peak significance wins, the peak branch runs and its Q
is capped by the band's peak ceiling. -/
lemma upperBandSelect_peak (i : ℕ) (rs fs : List ℚ) (ref : ℚ)
    (hc : (if i = 3 then (meanQ rs - rs.getD (argminIdx rs) 0) * 1.15
        else meanQ rs - rs.getD (argminIdx rs) 0) <
      (if i = 3 then rs.getD (argmaxIdx rs) 0 - meanQ rs
        else if i = 4 then (rs.getD (argmaxIdx rs) 0 - meanQ rs) * 1.1
        else if 5 ≤ i then (rs.getD (argmaxIdx rs) 0 - meanQ rs) * 1.2
        else rs.getD (argmaxIdx rs) 0 - meanQ rs)) :
    (upperBandSelect i rs fs ref).pickedPeak = true ∧
      (upperBandSelect i rs fs ref).q ≤ qPeakCapFor i := by
  constructor
  · simp only [upperBandSelect, if_pos hc]
  · simp only [upperBandSelect, if_pos hc, qPeakCapFor]
    split_ifs <;> exact min_le_right _ _

/-- When the weighted peak significance does not win, the dip branch runs and
its Q is capped by the band's dip ceiling. -/
lemma upperBandSelect_dip (i : ℕ) (rs fs : List ℚ) (ref : ℚ)
    (hc : ¬((if i = 3 then (meanQ rs - rs.getD (argminIdx rs) 0) * 1.15
        else meanQ rs - rs.getD (argminIdx rs) 0) <
      (if i = 3 then rs.getD (argmaxIdx rs) 0 - meanQ rs
        else if i = 4 then (rs.getD (argmaxIdx rs) 0 - meanQ rs) * 1.1
        else if 5 ≤ i then (rs.getD (argmaxIdx rs) 0 - meanQ rs) * 1.2
        else rs.getD (argmaxIdx rs) 0 - meanQ rs))) :
    (upperBandSelect i rs fs ref).pickedPeak = false ∧
      (upperBandSelect i rs fs ref).q ≤ qDipCapFor i := by
  constructor
  · simp only [upperBandSelect, if_neg hc]
  · simp only [upperBandSelect, if_neg hc, qDipCapFor]
    split_ifs <;> exact min_le_right _ _

/-! ### Shared lemmas about the reference-level accumulation -/

/-- When all three reference bands succeed, `ref_levels` is exactly the three
band medians in order. -/
lemma refLevels_all (sp fs : List ℚ) (h1 : refBandOk sp fs 400 600)
    (h2 : refBandOk sp fs 800 1200) (h3 : refBandOk sp fs 2000 3000) :
    refLevels sp fs = [refBandMedian sp fs 400 600, refBandMedian sp fs 800 1200,
      refBandMedian sp fs 2000 3000] := by
  obtain ⟨h1a, h1b⟩ := h1
  obtain ⟨h2a, h2b⟩ := h2
  obtain ⟨h3a, h3b⟩ := h3
  simp only [refLevels, List.foldr, refBandMedian]
  rw [if_pos h3a, if_pos h3b, if_pos h2a, if_pos h2b, if_pos h1a, if_pos h1b]

/-- When every reference band fails, `ref_levels` is empty. -/
lemma refLevels_nil (sp fs : List ℚ) (h1 : ¬refBandOk sp fs 400 600)
    (h2 : ¬refBandOk sp fs 800 1200) (h3 : ¬refBandOk sp fs 2000 3000) :
    refLevels sp fs = [] := by
  simp only [refBandOk, not_and] at h1 h2 h3
  simp only [refLevels, List.foldr]
  split_ifs <;> first | rfl | tauto

/-! ### Shared lemmas about `log10`, the clamp, and the Q maps -/

/-- `log10 10 = 1`. -/
lemma log10_ten : log10 10 = 1 :=
  Real.logb_self_eq_one (by norm_num)

/-- `log10 0.1 = -1`. -/
lemma log10_tenth : log10 0.1 = -1 := by
  have h : (0.1 : ℝ) = (10 : ℝ)⁻¹ := by norm_num
  rw [log10, h, Real.logb_inv, Real.logb_self_eq_one (by norm_num)]

/-- The Q-map denominator `log10 10 - log10 0.1` is `2`. -/
lemma qDenomTwo : log10 10 - log10 0.1 = 2 := by
  rw [log10_ten, log10_tenth]; norm_num

/-- Strict monotonicity of `log10` on positives. -/
lemma log10_lt_log10 {x y : ℝ} (hx : 0 < x) (h : x < y) : log10 x < log10 y :=
  Real.logb_lt_logb (by norm_num) hx h

/-- Monotonicity of `log10` on positives. -/
lemma log10_le_log10 {x y : ℝ} (hx : 0 < x) (h : x ≤ y) : log10 x ≤ log10 y :=
  Real.logb_le_logb_of_le (by norm_num) hx h

/-- `10 ^ log10 x = x` for positive `x`. -/
lemma rpow_log10 {x : ℝ} (hx : 0 < x) : (10 : ℝ) ^ log10 x = x :=
  Real.rpow_logb (by norm_num) (by norm_num) hx

/-- The clamp is bounded below by `0`. -/
lemma clamp01_nonneg (x : ℝ) : 0 ≤ clamp01 x := le_max_left 0 _

/-- The clamp is bounded above by `1`. -/
lemma clamp01_le_one (x : ℝ) : clamp01 x ≤ 1 :=
  max_le (by norm_num) (min_le_left 1 x)

/-- The clamp is the identity on `[0, 1]`. -/
lemma clamp01_of_mem {x : ℝ} (h0 : 0 ≤ x) (h1 : x ≤ 1) : clamp01 x = x := by
  rw [clamp01, min_eq_right h1, max_eq_right h0]

/-- The clamp collapses non-positive values to `0`. -/
lemma clamp01_of_nonpos {x : ℝ} (h : x ≤ 0) : clamp01 x = 0 := by
  rw [clamp01, min_eq_right (h.trans (by norm_num)), max_eq_left h]

/-- The clamp is monotone. -/
lemma clamp01_mono {x y : ℝ} (h : x ≤ y) : clamp01 x ≤ clamp01 y :=
  max_le_max le_rfl (min_le_min le_rfl h)

/-- The raw Q map in closed form. -/
lemma normalize_q_raw_eq (q : ℝ) : normalize_q_raw q = (log10 q + 1) / 2 := by
  rw [normalize_q_raw, qDenomTwo, log10_tenth]; ring

/-- On the Q domain `[0.1, 10]` the raw Q map lands in `[0, 1]`. -/
lemma normalize_q_raw_mem {q : ℝ} (h1 : 0.1 ≤ q) (h2 : q ≤ 10) :
    0 ≤ normalize_q_raw q ∧ normalize_q_raw q ≤ 1 := by
  have hlo : (-1 : ℝ) ≤ log10 q := by
    have := log10_le_log10 (by norm_num : (0 : ℝ) < 0.1) h1
    rwa [log10_tenth] at this
  have hhi : log10 q ≤ 1 := by
    have := log10_le_log10 (lt_of_lt_of_le (by norm_num) h1) h2
    rwa [log10_ten] at this
  rw [normalize_q_raw_eq]
  constructor <;> linarith

/-- The raw Q map is monotone on positives. -/
lemma normalize_q_raw_mono {x y : ℝ} (hx : 0 < x) (h : x ≤ y) :
    normalize_q_raw x ≤ normalize_q_raw y := by
  rw [normalize_q_raw_eq, normalize_q_raw_eq]
  have := log10_le_log10 hx h
  linarith

/-- The balancer's denormalization inverts the raw Q map on positives. -/
lemma denormalize_q_raw_roundtrip {q : ℝ} (hq : 0 < q) :
    denormalize_q (normalize_q_raw q) = q := by
  rw [denormalize_q, normalize_q_raw, qDenomTwo, div_mul_cancel₀ _ (by norm_num : (2:ℝ) ≠ 0),
    log10_tenth, sub_neg_eq_add, Real.rpow_add (by norm_num), rpow_log10 hq,
    Real.rpow_one]
  ring

/-- The denormalized Q is always positive. -/
lemma denormalize_q_pos (nq : ℝ) : 0 < denormalize_q nq := by
  rw [denormalize_q]
  positivity

/-- The denormalization is monotone. -/
lemma denormalize_q_mono {a b : ℝ} (h : a ≤ b) : denormalize_q a ≤ denormalize_q b := by
  rw [denormalize_q, denormalize_q, qDenomTwo]
  have : (10 : ℝ) ^ (a * 2) ≤ (10 : ℝ) ^ (b * 2) :=
    (Real.rpow_le_rpow_left_iff (by norm_num)).mpr (by linarith)
  linarith

/-- On the Q domain `[0.1, 10]` denormalization inverts `normalize_q`. -/
lemma denormalize_q_roundtrip {q : ℝ} (h1 : 0.1 ≤ q) (h2 : q ≤ 10) :
    denormalize_q (normalize_q q) = q := by
  obtain ⟨ha, hb⟩ := normalize_q_raw_mem h1 h2
  rw [normalize_q, clamp01_of_mem ha hb,
    denormalize_q_raw_roundtrip (lt_of_lt_of_le (by norm_num) h1)]

/-- `denormalize_q 0 = 0.1`: the parameter floor maps to the minimum Q. -/
lemma denormalize_q_zero : denormalize_q 0 = 0.1 := by
  rw [denormalize_q, zero_mul, Real.rpow_zero, mul_one]

/-- `denormalize_q 1 = 10`: the parameter ceiling maps to the maximum Q. -/
lemma denormalize_q_one : denormalize_q 1 = 10 := by
  rw [denormalize_q, qDenomTwo, one_mul,
    show ((2 : ℝ)) = ((2 : ℕ) : ℝ) by norm_num, Real.rpow_natCast]
  norm_num

/-- After rescaling by `2 / max`, every actual Q is at most `2`. -/
lemma rescaled_le_two {qs : Fin 7 → ℝ} (hm : 2 < maxActualQ qs) (i : Fin 7) :
    denormalize_q (qs i) * (2 / maxActualQ qs) ≤ 2 := by
  have hmpos : 0 < maxActualQ qs := lt_trans (by norm_num) hm
  have hle : denormalize_q (qs i) ≤ maxActualQ qs :=
    Finset.le_sup' (fun j => denormalize_q (qs j)) (Finset.mem_univ i)
  calc denormalize_q (qs i) * (2 / maxActualQ qs)
      ≤ maxActualQ qs * (2 / maxActualQ qs) :=
        mul_le_mul_of_nonneg_right hle (by positivity)
    _ = 2 := by field_simp

/-- The rescaled actual Q stays positive. -/
lemma rescaled_pos {qs : Fin 7 → ℝ} (hm : 2 < maxActualQ qs) (i : Fin 7) :
    0 < denormalize_q (qs i) * (2 / maxActualQ qs) := by
  have hmpos : 0 < maxActualQ qs := lt_trans (by norm_num) hm
  have := denormalize_q_pos (qs i)
  positivity

/-! ### Claims -/

/-- C1: every emitted preset parameter is a float in `[0, 1]`: the three
normalizers clamp unconditionally (covering both the normal band path and the
empty-band fallback path, which emit `normalize_frequency` / `normalize_gain`
/ `normalize_q` of some real), and the GlobalQBalancer rewrite keeps stored
values in `[0, 1]` whenever its inputs are. -/
theorem emitted_params_in_unit_interval :
    (∀ f : ℝ, 0 ≤ normalize_frequency f ∧ normalize_frequency f ≤ 1) ∧
    (∀ g : ℝ, 0 ≤ normalize_gain g ∧ normalize_gain g ≤ 1) ∧
    (∀ q : ℝ, 0 ≤ normalize_q q ∧ normalize_q q ≤ 1) ∧
    (∀ qs : Fin 7 → ℝ, (∀ i, 0 ≤ qs i ∧ qs i ≤ 1) →
      ∀ i, 0 ≤ global_q_balancer qs i ∧ global_q_balancer qs i ≤ 1) := by
  refine ⟨fun f => ⟨clamp01_nonneg _, clamp01_le_one _⟩,
    fun g => ⟨clamp01_nonneg _, clamp01_le_one _⟩,
    fun q => ⟨clamp01_nonneg _, clamp01_le_one _⟩, fun qs hqs i => ?_⟩
  rw [global_q_balancer]
  by_cases h : 2 < maxActualQ qs
  · rw [if_pos h]
    exact ⟨clamp01_nonneg _, clamp01_le_one _⟩
  · rw [if_neg h]
    exact hqs i

/-- C1 witness: the balancer clause instantiated at the all-ones vector. -/
theorem emitted_params_in_unit_interval_witness :
    0 ≤ global_q_balancer (fun _ => 1) 0 ∧ global_q_balancer (fun _ => 1) 0 ≤ 1 :=
  emitted_params_in_unit_interval.2.2.2 (fun _ => 1) (fun _ => ⟨zero_le_one, le_rfl⟩) 0

/-- C2 (amended): the GlobalQBalancer rescales exactly when the maximum
denormalized Q exceeds 2.0, and afterwards every denormalized Q is at most
2.0; the ratios between bands are preserved for bands whose rescaled actual Q
does not fall below the 0.1 normalization floor (below it, the stored value is
clamped to 0 and denormalizes back to 0.1, which alters that band's ratios --
see the counterexample). -/
theorem global_q_balancer_amended :
    ∀ qs : Fin 7 → ℝ,
      (¬2 < maxActualQ qs → global_q_balancer qs = qs) ∧
      (2 < maxActualQ qs → ∀ i, global_q_balancer qs i =
        clamp01 (normalize_q_raw (denormalize_q (qs i) * (2 / maxActualQ qs)))) ∧
      (∀ i, denormalize_q (global_q_balancer qs i) ≤ 2) ∧
      (2 < maxActualQ qs → ∀ i j,
        0.1 ≤ denormalize_q (qs i) * (2 / maxActualQ qs) →
        0.1 ≤ denormalize_q (qs j) * (2 / maxActualQ qs) →
        denormalize_q (global_q_balancer qs i) * denormalize_q (qs j) =
          denormalize_q (global_q_balancer qs j) * denormalize_q (qs i)) := by
  intro qs
  have branch_pos : 2 < maxActualQ qs → ∀ i, global_q_balancer qs i =
      clamp01 (normalize_q_raw (denormalize_q (qs i) * (2 / maxActualQ qs))) := by
    intro h i
    rw [global_q_balancer, if_pos h]
  have denorm_exact : 2 < maxActualQ qs → ∀ i,
      0.1 ≤ denormalize_q (qs i) * (2 / maxActualQ qs) →
      denormalize_q (global_q_balancer qs i) =
        denormalize_q (qs i) * (2 / maxActualQ qs) := by
    intro h i hx
    have hx2 := rescaled_le_two h i
    obtain ⟨h0, h1⟩ := normalize_q_raw_mem hx (by linarith)
    rw [branch_pos h i, clamp01_of_mem h0 h1,
      denormalize_q_raw_roundtrip (rescaled_pos h i)]
  refine ⟨?_, branch_pos, ?_, ?_⟩
  · intro h
    rw [global_q_balancer, if_neg h]
  · intro i
    by_cases h : 2 < maxActualQ qs
    · rw [branch_pos h i]
      have hx2 := rescaled_le_two h i
      have hxpos := rescaled_pos h i
      have hraw : normalize_q_raw (denormalize_q (qs i) * (2 / maxActualQ qs)) ≤
          normalize_q_raw 2 := normalize_q_raw_mono hxpos hx2
      obtain ⟨h20, h21⟩ := normalize_q_raw_mem (by norm_num : (0.1:ℝ) ≤ 2) (by norm_num)
      calc denormalize_q (clamp01 (normalize_q_raw
            (denormalize_q (qs i) * (2 / maxActualQ qs))))
        ≤ denormalize_q (clamp01 (normalize_q_raw 2)) :=
          denormalize_q_mono (clamp01_mono hraw)
        _ = 2 := by rw [clamp01_of_mem h20 h21,
            denormalize_q_raw_roundtrip (by norm_num : (0:ℝ) < 2)]
    · rw [global_q_balancer, if_neg h]
      exact le_trans
        (Finset.le_sup' (fun j => denormalize_q (qs j)) (Finset.mem_univ i))
        (not_lt.mp h)
  · intro h i j hi hj
    rw [denorm_exact h i hi, denorm_exact h j hj]
    ring

/-- C2 counterexample: the stored normalized Q values `(0, 1, 1, 1, 1, 1, 1)`
(all in `[0, 1]`) trigger the rescale (max actual Q is 10), but afterwards the
ratio between bands 0 and 1 changes: band 0's rescaled Q `0.02` is clamped to
the floor, so `denorm(out 0) * denorm(in 1) = 0.1 * 10 = 1` while
`denorm(out 1) * denorm(in 0) = 2 * 0.1 = 0.2` — the claimed ratio
preservation fails on the code. -/
theorem global_q_balancer_ratio_counterexample :
    2 < maxActualQ (fun i => if i = 0 then 0 else 1) ∧
      denormalize_q (global_q_balancer (fun i => if i = 0 then 0 else 1) 0) *
          denormalize_q 1 ≠
        denormalize_q (global_q_balancer (fun i => if i = 0 then 0 else 1) 1) *
          denormalize_q 0 := by
  have hm : maxActualQ (fun i => if i = 0 then 0 else 1) = 10 := by
    apply le_antisymm
    · apply Finset.sup'_le
      intro i _
      show denormalize_q (if i = 0 then (0:ℝ) else 1) ≤ 10
      by_cases h : i = 0
      · rw [if_pos h, denormalize_q_zero]
        norm_num
      · rw [if_neg h, denormalize_q_one]
    · have h := Finset.le_sup'
        (fun i : Fin 7 => denormalize_q (if i = 0 then (0:ℝ) else 1))
        (Finset.mem_univ (1 : Fin 7))
      rw [if_neg (by decide : ¬(1 : Fin 7) = 0), denormalize_q_one] at h
      exact h
  have h2 : 2 < maxActualQ (fun i => if i = 0 then 0 else 1) := by rw [hm]; norm_num
  refine ⟨h2, ?_⟩
  have hout0 : global_q_balancer (fun i => if i = 0 then 0 else 1) 0 = 0 := by
    rw [global_q_balancer, if_pos h2]
    rw [show (if (0 : Fin 7) = 0 then (0:ℝ) else 1) = 0 from if_pos rfl,
      denormalize_q_zero, hm]
    apply clamp01_of_nonpos
    rw [normalize_q_raw_eq]
    have hlog : log10 (0.1 * (2 / 10)) < -1 := by
      have := log10_lt_log10 (by norm_num : (0:ℝ) < 0.1 * (2 / 10))
        (by norm_num : (0.1:ℝ) * (2 / 10) < 0.1)
      rwa [log10_tenth] at this
    linarith
  have hout1 : denormalize_q (global_q_balancer (fun i => if i = 0 then 0 else 1) 1) = 2 := by
    rw [global_q_balancer, if_pos h2]
    rw [show (if (1 : Fin 7) = 0 then (0:ℝ) else 1) = 1 from if_neg (by decide),
      denormalize_q_one, hm]
    have hx : (10 : ℝ) * (2 / 10) = 2 := by norm_num
    rw [hx]
    obtain ⟨h20, h21⟩ := normalize_q_raw_mem (by norm_num : (0.1:ℝ) ≤ 2) (by norm_num)
    rw [clamp01_of_mem h20 h21, denormalize_q_raw_roundtrip (by norm_num : (0:ℝ) < 2)]
  rw [hout0, hout1, denormalize_q_zero, denormalize_q_one]
  norm_num

/-- C2 witness: the amended theorem applied to the all-zero vector (max
actual Q is 0.1, so the pass leaves the values untouched and the ceiling
holds). -/
theorem global_q_balancer_amended_witness :
    global_q_balancer (fun _ => 0) = (fun _ => 0) ∧
      denormalize_q (global_q_balancer (fun _ => 0) 0) ≤ 2 := by
  have hm : maxActualQ (fun _ => 0) = 0.1 := by
    simp [maxActualQ, denormalize_q_zero]
  exact ⟨(global_q_balancer_amended _).1 (by rw [hm]; norm_num),
    (global_q_balancer_amended _).2.2.1 0⟩

/-- C3: evaluating the transient analysis on the empty signal (sample rate
44100 Hz) does not degrade to a zero transient density: the Savitzky-Golay
smoothing step rejects its 441-sample window on a 0-sample envelope, so the
function fails before the `len(y) > 0` density guard is ever reached.  (In
the source this `ValueError` is swallowed by `analyze_audio`'s top-level
`except`, which returns `None` instead of a preset.) -/
theorem analyze_transients_empty_signal_errors :
    analyze_transients [] 44100 =
      Except.error "savgol_filter: window_length must not exceed the input size" := by
  rfl

/-- C4 (amended): a boundary extremum returns the fixed default Q `1.0`, not
the frequency-tiered default; a zero-or-inverted measured bandwidth likewise
returns `1.0`; the frequency-tiered default is returned exactly when the
`-3 dB` index search fails, and that search cannot fail for an interior
extremum when the frequency array is at least as long as the spectrum slice
(so the tiered branch is unreachable in the analyzer, whose two arrays have
equal length). -/
theorem calculate_q_fallbacks_amended :
    (∀ (s fs : List ℚ) (p : ℕ), (p = 0 ∨ s.length - 1 ≤ p) →
      calculate_q_from_spectrum s p fs = 1) ∧
    (∀ (s fs : List ℚ) (p : ℕ), ¬(p = 0 ∨ s.length - 1 ≤ p) →
      (upperWalkFrom s (s.getD p 0 - 3.0) p ≤ lowerWalk s (s.getD p 0 - 3.0) p ∨
        fs.length ≤ upperWalkFrom s (s.getD p 0 - 3.0) p) →
      calculate_q_from_spectrum s p fs = tieredDefault (fs.getD p 0)) ∧
    (∀ (s fs : List ℚ) (p : ℕ), ¬(p = 0 ∨ s.length - 1 ≤ p) →
      ¬(upperWalkFrom s (s.getD p 0 - 3.0) p ≤ lowerWalk s (s.getD p 0 - 3.0) p ∨
        fs.length ≤ upperWalkFrom s (s.getD p 0 - 3.0) p) →
      fs.getD (upperWalkFrom s (s.getD p 0 - 3.0) p) 0 -
        fs.getD (lowerWalk s (s.getD p 0 - 3.0) p) 0 ≤ 0 →
      calculate_q_from_spectrum s p fs = 1) ∧
    (∀ (s fs : List ℚ) (p : ℕ), 0 < p → p < s.length - 1 → s.length ≤ fs.length →
      lowerWalk s (s.getD p 0 - 3.0) p < upperWalkFrom s (s.getD p 0 - 3.0) p ∧
        upperWalkFrom s (s.getD p 0 - 3.0) p < fs.length) := by
  refine ⟨?_, ?_, ?_, ?_⟩
  · intro s fs p h
    simp only [calculate_q_from_spectrum]
    rw [if_pos h]
    norm_num
  · intro s fs p h1 h2
    simp only [calculate_q_from_spectrum]
    rw [if_neg h1, if_pos h2]
  · intro s fs p h1 h2 h3
    simp only [calculate_q_from_spectrum]
    rw [if_neg h1, if_neg h2, if_pos h3]
    norm_num
  · intro s fs p hp0 hpl hlen
    have := walk_valid s fs p hp0 hpl hlen
    convert this using 4 <;> norm_num

/-- C4 counterexample: the extremum at the slice boundary (index 0 of
`[5, 0, 0]`, center frequency 50 Hz < 100 Hz) returns 1.0, not the
frequency-tiered default 0.7 the claim requires. -/
theorem calculate_q_boundary_counterexample :
    calculate_q_from_spectrum [5, 0, 0] 0 [50, 60, 70] = 1 ∧
      tieredDefault ([50, 60, 70].getD 0 0) = 0.7 ∧ (1 : ℚ) ≠ 0.7 :=
  ⟨by norm_num [calculate_q_from_spectrum], by norm_num [tieredDefault], by norm_num⟩

/-- C4 witness: the boundary clause at `p = 0` and the valid-walk clause on
the interior peak of `[0, 5, 0]`. -/
theorem calculate_q_fallbacks_witness :
    calculate_q_from_spectrum [1, 2] 0 [10, 20] = 1 ∧
      (lowerWalk [0, 5, 0] ([0, 5, 0].getD 1 0 - 3.0) 1 <
          upperWalkFrom [0, 5, 0] ([0, 5, 0].getD 1 0 - 3.0) 1 ∧
        upperWalkFrom [0, 5, 0] ([0, 5, 0].getD 1 0 - 3.0) 1 < [1, 2, 3].length) :=
  ⟨calculate_q_fallbacks_amended.1 [1, 2] [10, 20] 0 (Or.inl rfl),
    calculate_q_fallbacks_amended.2.2.2 [0, 5, 0] [1, 2, 3] 1 (by norm_num) (by norm_num)
      (by norm_num)⟩

/-- C5 (amended): the reference level is the `[0.25, 0.5, 0.25]`-weighted
average of the three reference-band medians when all three bands yield
samples, and 0.0 when none does; when only one or two bands yield samples the
weighted average is undefined (numpy's length-mismatch `ValueError`, `none`
in the model) rather than a well-defined value. -/
theorem reference_level_amended :
    (∀ (sp fs : List ℚ), refBandOk sp fs 400 600 → refBandOk sp fs 800 1200 →
      refBandOk sp fs 2000 3000 →
      calculate_reference_level sp fs =
        some (0.25 * refBandMedian sp fs 400 600 + 0.5 * refBandMedian sp fs 800 1200 +
          0.25 * refBandMedian sp fs 2000 3000)) ∧
    (∀ (sp fs : List ℚ), ¬refBandOk sp fs 400 600 → ¬refBandOk sp fs 800 1200 →
      ¬refBandOk sp fs 2000 3000 →
      calculate_reference_level sp fs = some 0) := by
  constructor
  · intro sp fs h1 h2 h3
    rw [calculate_reference_level, refLevels_all sp fs h1 h2 h3]
    simp only [npAverage]
    norm_num
    ring_nf
    simp
  · intro sp fs h1 h2 h3
    rw [calculate_reference_level, refLevels_nil sp fs h1 h2 h3]
    norm_num

/-- C5 counterexample: on `freqs = [500, 5000]` only the 2000-3000 Hz band
yields a sample, so `ref_levels` has one entry against three weights and the
weighted average fails (`none`), contradicting the claim that a well-defined
value is returned whenever only some bands yield samples. -/
theorem reference_level_partial_band_counterexample :
    calculate_reference_level [1, 2] [500, 5000] = none := by
  norm_num [calculate_reference_level, refLevels, argminAbs, argminIdx, argminAux,
    medianQ, sortQ, insertSorted, npAverage]

/-- C5 witness: a ten-bin spectrum on which all three reference bands yield
samples, evaluated through the amended theorem. -/
theorem reference_level_amended_witness :
    refBandOk [3, 1, 4, 1, 5, 9, 2, 6, 5, 3]
        [400, 500, 600, 800, 1000, 1200, 2000, 2500, 3000, 4000] 400 600 ∧
    calculate_reference_level [3, 1, 4, 1, 5, 9, 2, 6, 5, 3]
        [400, 500, 600, 800, 1000, 1200, 2000, 2500, 3000, 4000] =
      some (0.25 * refBandMedian [3, 1, 4, 1, 5, 9, 2, 6, 5, 3]
          [400, 500, 600, 800, 1000, 1200, 2000, 2500, 3000, 4000] 400 600 +
        0.5 * refBandMedian [3, 1, 4, 1, 5, 9, 2, 6, 5, 3]
          [400, 500, 600, 800, 1000, 1200, 2000, 2500, 3000, 4000] 800 1200 +
        0.25 * refBandMedian [3, 1, 4, 1, 5, 9, 2, 6, 5, 3]
          [400, 500, 600, 800, 1000, 1200, 2000, 2500, 3000, 4000] 2000 3000) := by
  refine ⟨by norm_num [refBandOk, argminAbs, argminIdx, argminAux], ?_⟩
  exact reference_level_amended.1 _ _
    (by norm_num [refBandOk, argminAbs, argminIdx, argminAux])
    (by norm_num [refBandOk, argminAbs, argminIdx, argminAux])
    (by norm_num [refBandOk, argminAbs, argminIdx, argminAux])

/-- C6 (amended): for the upper band group (`i` in 3..6), a selected peak has
its Q capped at the band's peak ceiling (1.8 / 2.0 / 2.5 / 1.5), while a
selected dip is widened by the factor 0.8 and then capped at the band's own
tighter dip ceiling (1.5 / 1.7 / 2.0 / 1.2), not at the peak ceiling; each
dip ceiling lies below the corresponding peak ceiling, so every band result
still respects the peak ceiling. -/
theorem upper_band_q_caps_amended :
    ∀ (i : ℕ) (rs fs : List ℚ) (ref : ℚ), 3 ≤ i → i ≤ 6 →
      ((upperBandSelect i rs fs ref).pickedPeak = true →
        (upperBandSelect i rs fs ref).q ≤ qPeakCapFor i) ∧
      ((upperBandSelect i rs fs ref).pickedPeak = false →
        (upperBandSelect i rs fs ref).q ≤ qDipCapFor i) ∧
      qDipCapFor i ≤ qPeakCapFor i := by
  intro i rs fs ref h3 h6
  by_cases hc : (if i = 3 then (meanQ rs - rs.getD (argminIdx rs) 0) * 1.15
        else meanQ rs - rs.getD (argminIdx rs) 0) <
      (if i = 3 then rs.getD (argmaxIdx rs) 0 - meanQ rs
        else if i = 4 then (rs.getD (argmaxIdx rs) 0 - meanQ rs) * 1.1
        else if 5 ≤ i then (rs.getD (argmaxIdx rs) 0 - meanQ rs) * 1.2
        else rs.getD (argmaxIdx rs) 0 - meanQ rs)
  · obtain ⟨hp, hq⟩ := upperBandSelect_peak i rs fs ref hc
    refine ⟨fun _ => hq, fun hf => absurd (hp ▸ hf) (by simp), ?_⟩
    simp only [qDipCapFor, qPeakCapFor]
    split_ifs <;> norm_num
  · obtain ⟨hp, hq⟩ := upperBandSelect_dip i rs fs ref hc
    refine ⟨fun ht => absurd (hp ▸ ht) (by simp), fun _ => hq, ?_⟩
    simp only [qDipCapFor, qPeakCapFor]
    split_ifs <;> norm_num

/-- C6 counterexample: on the Mids band (`i = 3`) spectrum `[0, 0, -10, 0, 0]`
over 800-1200 Hz the dip is selected with bandwidth-derived Q 2.0; the code
widens it to 1.6 and caps at the dip ceiling 1.5, whereas the claim's rule
(widen by 0.8, then cap at the band ceiling 1.8) would produce 1.6. -/
theorem upper_band_dip_cap_counterexample :
    (upperBandSelect 3 [0, 0, -10, 0, 0] [800, 900, 1000, 1100, 1200] 0).q = 1.5 ∧
      min (calculate_q_from_spectrum [0, 0, -10, 0, 0]
          (argminIdx [0, 0, -10, 0, 0]) [800, 900, 1000, 1100, 1200] * 0.8)
        (qPeakCapFor 3) = 1.6 ∧
      (1.5 : ℚ) ≠ 1.6 := by
  refine ⟨?_, ?_, by norm_num⟩
  · norm_num [upperBandSelect, argmaxIdx, argmaxAux, argminIdx, argminAux, meanQ,
      calculate_q_from_spectrum, upperWalkFrom, upperWalk, lowerWalk]
  · norm_num [calculate_q_from_spectrum, argminIdx, argminAux, upperWalkFrom,
      upperWalk, lowerWalk, qPeakCapFor]

/-- C6 witness: the amended theorem instantiated on the High Mids band. -/
theorem upper_band_q_caps_witness :
    ((upperBandSelect 4 [1, 2, 3] [2600, 2700, 2800] 0).pickedPeak = true →
      (upperBandSelect 4 [1, 2, 3] [2600, 2700, 2800] 0).q ≤ qPeakCapFor 4) ∧
    ((upperBandSelect 4 [1, 2, 3] [2600, 2700, 2800] 0).pickedPeak = false →
      (upperBandSelect 4 [1, 2, 3] [2600, 2700, 2800] 0).q ≤ qDipCapFor 4) ∧
    qDipCapFor 4 ≤ qPeakCapFor 4 :=
  upper_band_q_caps_amended 4 [1, 2, 3] [2600, 2700, 2800] 0 (by norm_num) (by norm_num)

/-- C7: on their documented domains the three normalization maps are inverted
exactly by their algebraic inverses (for Q, the very inverse used by the
GlobalQBalancer), hence trivially within `1e-6` relative error. -/
theorem normalize_denormalize_roundtrip :
    (∀ f : ℝ, 20 ≤ f → f ≤ 20000 →
      denormalize_frequency (normalize_frequency f) = f ∧
        |denormalize_frequency (normalize_frequency f) - f| ≤ 1e-6 * |f|) ∧
    (∀ g : ℝ, -24 ≤ g → g ≤ 24 →
      denormalize_gain (normalize_gain g) = g ∧
        |denormalize_gain (normalize_gain g) - g| ≤ 1e-6 * |g|) ∧
    (∀ q : ℝ, 0.1 ≤ q → q ≤ 10 →
      denormalize_q (normalize_q q) = q ∧
        |denormalize_q (normalize_q q) - q| ≤ 1e-6 * |q|) := by
  refine ⟨fun f h1 h2 => ?_, fun g h1 h2 => ?_, fun q h1 h2 => ?_⟩
  · have hD : 0 < log10 20000 - log10 20 := by
      have := log10_lt_log10 (by norm_num : (0:ℝ) < 20) (by norm_num : (20:ℝ) < 20000)
      linarith
    have hf : 0 < f := lt_of_lt_of_le (by norm_num) h1
    have hnum0 : 0 ≤ log10 f - log10 20 := by
      have := log10_le_log10 (by norm_num : (0:ℝ) < 20) h1
      linarith
    have hnum1 : log10 f - log10 20 ≤ log10 20000 - log10 20 := by
      have := log10_le_log10 hf h2
      linarith
    have hmem : 0 ≤ (log10 f - log10 20) / (log10 20000 - log10 20) ∧
        (log10 f - log10 20) / (log10 20000 - log10 20) ≤ 1 :=
      ⟨div_nonneg hnum0 hD.le, (div_le_one hD).mpr hnum1⟩
    have heq : denormalize_frequency (normalize_frequency f) = f := by
      rw [normalize_frequency, clamp01_of_mem hmem.1 hmem.2, denormalize_frequency,
        div_mul_cancel₀ _ hD.ne', sub_add_cancel, rpow_log10 hf]
    exact ⟨heq, by rw [heq, sub_self, abs_zero]; positivity⟩
  · have heq : denormalize_gain (normalize_gain g) = g := by
      have hmem : 0 ≤ (g - (-24)) / (24 - (-24)) ∧ (g - (-24)) / (24 - (-24)) ≤ 1 := by
        constructor
        · apply div_nonneg <;> linarith
        · rw [div_le_one (by norm_num)]; linarith
      rw [normalize_gain, clamp01_of_mem hmem.1 hmem.2, denormalize_gain]
      field_simp
    exact ⟨heq, by rw [heq, sub_self, abs_zero]; positivity⟩
  · have heq := denormalize_q_roundtrip h1 h2
    exact ⟨heq, by rw [heq, sub_self, abs_zero]; positivity⟩

/-- C7 witness: the round trip at 200 Hz, 0 dB and Q 1. -/
theorem normalize_denormalize_roundtrip_witness :
    denormalize_frequency (normalize_frequency 200) = 200 ∧
      denormalize_gain (normalize_gain 0) = 0 ∧
      denormalize_q (normalize_q 1) = 1 :=
  ⟨(normalize_denormalize_roundtrip.1 200 (by norm_num) (by norm_num)).1,
    (normalize_denormalize_roundtrip.2.1 0 (by norm_num) (by norm_num)).1,
    (normalize_denormalize_roundtrip.2.2 1 (by norm_num) (by norm_num)).1⟩

/-- C8: `normalize_frequency` is strictly increasing on `(20, 20000)`, and
`normalize_gain` and `normalize_q` are strictly increasing on `[-24, 24]` and
`[0.1, 10]` respectively. -/
theorem normalize_maps_strictly_increasing :
    (∀ a b : ℝ, 20 < a → a < b → b < 20000 →
      normalize_frequency a < normalize_frequency b) ∧
    (∀ a b : ℝ, -24 ≤ a → a < b → b ≤ 24 →
      normalize_gain a < normalize_gain b) ∧
    (∀ a b : ℝ, 0.1 ≤ a → a < b → b ≤ 10 →
      normalize_q a < normalize_q b) := by
  refine ⟨fun a b h1 h2 h3 => ?_, fun a b h1 h2 h3 => ?_, fun a b h1 h2 h3 => ?_⟩
  · have hD : 0 < log10 20000 - log10 20 := by
      have := log10_lt_log10 (by norm_num : (0:ℝ) < 20) (by norm_num : (20:ℝ) < 20000)
      linarith
    have ha : 0 < a := lt_trans (by norm_num) h1
    have bnd : ∀ x : ℝ, 20 ≤ x → x ≤ 20000 →
        0 ≤ (log10 x - log10 20) / (log10 20000 - log10 20) ∧
          (log10 x - log10 20) / (log10 20000 - log10 20) ≤ 1 := by
      intro x hx1 hx2
      have h0 := log10_le_log10 (by norm_num : (0:ℝ) < 20) hx1
      have h1' := log10_le_log10 (lt_of_lt_of_le (by norm_num) hx1) hx2
      exact ⟨div_nonneg (by linarith) hD.le, (div_le_one hD).mpr (by linarith)⟩
    obtain ⟨ha0, ha1⟩ := bnd a h1.le (by linarith)
    obtain ⟨hb0, hb1⟩ := bnd b (by linarith) h3.le
    rw [normalize_frequency, normalize_frequency, clamp01_of_mem ha0 ha1,
      clamp01_of_mem hb0 hb1]
    exact (div_lt_div_iff_of_pos_right hD).mpr (by linarith [log10_lt_log10 ha h2])
  · have bnd : ∀ x : ℝ, -24 ≤ x → x ≤ 24 →
        0 ≤ (x - (-24)) / (24 - (-24)) ∧ (x - (-24)) / (24 - (-24)) ≤ 1 := by
      intro x hx1 hx2
      constructor
      · apply div_nonneg <;> linarith
      · rw [div_le_one (by norm_num)]; linarith
    obtain ⟨ha0, ha1⟩ := bnd a h1 (by linarith)
    obtain ⟨hb0, hb1⟩ := bnd b (by linarith) h3
    rw [normalize_gain, normalize_gain, clamp01_of_mem ha0 ha1, clamp01_of_mem hb0 hb1]
    exact (div_lt_div_iff_of_pos_right (by norm_num)).mpr (by linarith)
  · have ha : 0 < a := lt_of_lt_of_le (by norm_num) h1
    obtain ⟨ha0, ha1⟩ := normalize_q_raw_mem h1 (by linarith)
    obtain ⟨hb0, hb1⟩ := normalize_q_raw_mem (by linarith) h3
    rw [normalize_q, normalize_q, clamp01_of_mem ha0 ha1, clamp01_of_mem hb0 hb1,
      normalize_q_raw_eq, normalize_q_raw_eq]
    have := log10_lt_log10 ha h2
    linarith

/-- C8 witness: the three maps at 100 < 1000 Hz, 0 < 1 dB and 1 < 2 Q. -/
theorem normalize_maps_strictly_increasing_witness :
    normalize_frequency 100 < normalize_frequency 1000 ∧
      normalize_gain 0 < normalize_gain 1 ∧
      normalize_q 1 < normalize_q 2 :=
  ⟨normalize_maps_strictly_increasing.1 100 1000 (by norm_num) (by norm_num) (by norm_num),
    normalize_maps_strictly_increasing.2.1 0 1 (by norm_num) (by norm_num) (by norm_num),
    normalize_maps_strictly_increasing.2.2 1 2 (by norm_num) (by norm_num) (by norm_num)⟩

/-- C9 (amended): two analysis runs on the identical signal agree on every
preset field except the `CreationDate` metadata entry, which records the
wall-clock time of each run. -/
theorem preset_determinism_amended :
    ∀ (s : String) (d : ℝ) (r : ℝ × ℝ) (b : Fin 7 → ℝ × ℝ × ℝ) (t1 t2 : String),
      erasePresetDate (mkPreset s t1 d r b) = erasePresetDate (mkPreset s t2 d r b) :=
  fun _ _ _ _ _ _ => rfl

/-- C9 counterexample: two runs on the same signal one second apart produce
presets that are not identical — the `CreationDate` metadata field differs,
refuting bit-identity of all metadata fields. -/
theorem preset_creation_date_counterexample :
    mkPreset "input.wav" "2025-01-01 00:00:00" 0 (20, 20000) (fun _ => (0, 0, 0)) ≠
      mkPreset "input.wav" "2025-01-01 00:00:01" 0 (20, 20000) (fun _ => (0, 0, 0)) :=
  fun h => absurd (congrArg (fun p => p.metadata.creationDate) h) (by decide)

/-- C10: any Q that went through the pipeline's final clamp
`max(min(q, 2.0), 0.5)` (or the empty-band fallback value 1.0) denormalizes
to at most 2.0 after normalization, so when the GlobalQBalancer runs on such
values its rescaling branch is never taken and the pass is the identity. -/
theorem clamped_q_never_triggers_balancer :
    ∀ qs : Fin 7 → ℝ,
      (∀ i, ∃ r : ℝ, qs i = normalize_q (max (min r 2.0) 0.5) ∨ qs i = normalize_q 1.0) →
      (∀ i, denormalize_q (qs i) ≤ 2) ∧ global_q_balancer qs = qs := by
  intro qs hqs
  have key : ∀ i, denormalize_q (qs i) ≤ 2 := by
    intro i
    obtain ⟨r, hr | hr⟩ := hqs i
    · have hlo : (0.1 : ℝ) ≤ max (min r 2.0) 0.5 :=
        le_trans (by norm_num) (le_max_right _ _)
      have hhi : max (min r 2.0) 0.5 ≤ 10 :=
        max_le (le_trans (min_le_right _ _) (by norm_num)) (by norm_num)
      rw [hr, denormalize_q_roundtrip hlo hhi]
      exact max_le (le_trans (min_le_right _ _) (by norm_num)) (by norm_num)
    · rw [hr, denormalize_q_roundtrip (by norm_num) (by norm_num)]
      norm_num
  refine ⟨key, ?_⟩
  have hm : maxActualQ qs ≤ 2 :=
    Finset.sup'_le _ _ fun i _ => key i
  rw [global_q_balancer, if_neg (not_lt.mpr hm)]

/-- C10 witness: the claim instantiated at the constant vector built from the
clamped raw Q 1.0. -/
theorem clamped_q_never_triggers_balancer_witness :
    denormalize_q (normalize_q (max (min 1.0 2.0) 0.5)) ≤ 2 ∧
      global_q_balancer (fun _ => normalize_q (max (min 1.0 2.0) 0.5)) =
        fun _ => normalize_q (max (min 1.0 2.0) 0.5) :=
  ⟨(clamped_q_never_triggers_balancer (fun _ => normalize_q (max (min 1.0 2.0) 0.5))
      (fun _ => ⟨1.0, Or.inl rfl⟩)).1 0,
    (clamped_q_never_triggers_balancer (fun _ => normalize_q (max (min 1.0 2.0) 0.5))
      (fun _ => ⟨1.0, Or.inl rfl⟩)).2⟩
